import Mathlib

/-!
Verification development for the uSpherum ESC console client
(`esc_cli/cli.py`).  The Python source is shallowly embedded: pure
helpers become Lean functions, Python exceptions become `Except PyError`,
the pickled cache file and the HTTP/WebSocket backends become explicit
state values, and the effect of a command handler is an explicit trace of
`Effect`s.  Machine-level concerns (actual sockets, pickling bytes,
docopt parsing) are modelled at the interface granularity the embedded
control flow observes.
-/

namespace EscCli

/-- Python exceptions that the embedded code can raise. -/
inductive PyError : Type
  | valueError (msg : String)
  | typeError (msg : String)
  | assertionError
  | unpicklingError (msg : String)
  | eofError
deriving DecidableEq

/-! ### Python string primitives used by `cli.py` -/

/-- Python `str.split(sep)` on a list of characters: splits at every occurrence
of `sep`, keeping empty segments, never returning an empty list
(`''.split(':') == ['']`). -/
def splitChars (sep : Char) : List Char → List (List Char)
  | [] => [[]]
  | c :: cs =>
    if c = sep then [] :: splitChars sep cs
    else
      match splitChars sep cs with
      | [] => [[c]]
      | p :: ps => (c :: p) :: ps

/-- Python `s.split(sep)` for a one-character separator. -/
def pySplit (s : String) (sep : Char) : List String :=
  (splitChars sep s.data).map String.mk

/-- Python `str.lower()`; the CLI only lowercases ASCII letters
(`t`/`f`, `y`, `on`/`off`), where `Char.toLower` agrees with Python. -/
def pyLower (s : String) : String :=
  String.mk (s.data.map Char.toLower)

/-- Python `haystack.find(needle) != -1`, i.e. substring containment,
on character lists (`''` is contained in everything, as in Python). -/
def listContains : List Char → List Char → Bool
  | _, [] => true
  | [], _ :: _ => false
  | h :: hs, n :: ns => List.isPrefixOf (n :: ns) (h :: hs) || listContains hs (n :: ns)

/-- Python `s.startswith(pre)`. -/
def pyStartsWith (s pre : String) : Bool :=
  List.isPrefixOf pre.data s.data

/-- Value of a nonempty all-decimal-digit character list, else `none`. -/
def digitsVal : List Char → Option Nat
  | [] => none
  | cs =>
    if cs.all Char.isDigit then
      some (cs.foldl (fun n c => n * 10 + (c.toNat - 48)) 0)
    else none

/-- Python `int(s)` for the plain decimal forms the CLI passes
(an optional sign followed by digits); anything else raises
`ValueError`, as in Python.  Whitespace/underscore forms, which the CLI
never produces, are not modelled. -/
def pyInt (s : String) : Except PyError Int :=
  match s.data with
  | '-' :: rest =>
    match digitsVal rest with
    | some n => .ok (-(n : Int))
    | none => .error (.valueError ("invalid literal for int"))
  | '+' :: rest =>
    match digitsVal rest with
    | some n => .ok (n : Int)
    | none => .error (.valueError ("invalid literal for int"))
  | cs =>
    match digitsVal cs with
    | some n => .ok (n : Int)
    | none => .error (.valueError ("invalid literal for int"))

/-- Value of a hexadecimal digit, if any. -/
def hexDigitVal (c : Char) : Option Nat :=
  if c.isDigit then some (c.toNat - 48)
  else if 'a' ≤ c ∧ c ≤ 'f' then some (c.toNat - 97 + 10)
  else if 'A' ≤ c ∧ c ≤ 'F' then some (c.toNat - 65 + 10)
  else none

/-- Value of a hex-digit list (most significant first), else `none`. -/
def hexVal : List Char → Option Nat
  | [] => some 0
  | c :: cs =>
    match hexDigitVal c, hexVal cs with
    | some d, some n => some (n * 16 + d)
    | _, _ => none

/-- Python `uuid.UUID(s).int` for the hyphenated/plain hex forms the
backend serves: hyphens are removed, exactly 32 hex digits must remain,
and the value is the 128-bit integer they denote; otherwise
`ValueError`, as in Python.  (The `urn:`/brace forms `uuid.UUID` also
accepts never occur here and are not modelled.) -/
def pyUUID (s : String) : Except PyError Nat :=
  let cs := s.data.filter (fun c => c ≠ '-')
  if cs.length = 32 then
    match hexVal cs.reverse with
    | some n => .ok n
    | none => .error (.valueError "badly formed hexadecimal UUID string")
  else .error (.valueError "badly formed hexadecimal UUID string")

/-! ### Data model -/

/-- A lighting line as the filter/sort engine reads it: identifier,
name, maintenance flag and group-id set.  The latitude/longitude payload
is never read by any embedded operation (only deleted before display)
and is omitted. -/
structure Line : Type where
  id : String
  name : String
  in_maintenance : Bool
  groups : List Int
deriving DecidableEq

/-- One record of the `lighting-line-state` collection: the joining
`line_id` plus the remaining state fields (relay, ctl_mode, el_params),
which the embedded control flow treats as an opaque payload. -/
structure LineState : Type where
  line_id : String
  payload : String
deriving DecidableEq

/-! ### Sorting (`sorted(lines, key=...)`) -/

/-- Sort key produced by
`lambda l: UUID(l[sort_by]) if sort_by == 'id' else sort_by`:
either a parsed 128-bit id or the literal sort-field name string. -/
inductive SortKey : Type
  | uuid (n : Nat)
  | str (s : String)
deriving DecidableEq

/-- Lexicographic `<=` on character lists by code point — Python's
string comparison. -/
def charsLe : List Char → List Char → Bool
  | [], _ => true
  | _ :: _, [] => false
  | a :: as, b :: bs =>
    if a.toNat < b.toNat then true
    else if b.toNat < a.toNat then false
    else charsLe as bs

/-- Python `<=` on strings. -/
def strLeB (a b : String) : Bool := charsLe a.data b.data

/-- Comparison of sort keys.  A call site always produces keys of a
single shape, so the heterogeneous cases (where Python would raise
`TypeError`) are unreachable. -/
def sortKeyLe : SortKey → SortKey → Bool
  | .uuid a, .uuid b => decide (a ≤ b)
  | .str a, .str b => strLeB a b
  | .uuid _, .str _ => false
  | .str _, .uuid _ => false

/-- Insert `a` into `l` before the first element `b` with `le a b`;
the insertion step of a stable insertion sort. -/
def stableInsert {α : Type} (le : α → α → Bool) (a : α) : List α → List α
  | [] => [a]
  | b :: bs => if le a b then a :: b :: bs else b :: stableInsert le a bs

/-- Stable sort.  Python's `sorted` is a stable sort by a total key
order; any two stable sorts agree on such orders, so insertion sort is
an exact model. -/
def stableSort {α : Type} (le : α → α → Bool) : List α → List α
  | [] => []
  | x :: xs => stableInsert le x (stableSort le xs)

/-- Evaluate `f` over a list left to right, propagating the first
raised exception (how Python evaluates `key` for every element and how
comprehensions iterate). -/
def mapExcept {α β : Type} (f : α → Except PyError β) : List α → Except PyError (List β)
  | [] => .ok []
  | a :: as =>
    match f a with
    | .error e => .error e
    | .ok b =>
      match mapExcept f as with
      | .error e => .error e
      | .ok bs => .ok (b :: bs)

/-- Python `sorted(xs, key=key)` with a possibly raising key function:
all keys are computed first (propagating the first exception), then the
list is sorted stably by key. -/
def pySorted {α κ : Type} (le : κ → κ → Bool) (key : α → Except PyError κ)
    (xs : List α) : Except PyError (List α) :=
  match mapExcept key xs with
  | .error e => .error e
  | .ok ks => .ok ((stableSort (fun p q => le p.1 q.1) (ks.zip xs)).map Prod.snd)

/-- The sort key of `apply_line_filters_and_sorting`:
`UUID(l[sort_by]) if sort_by == 'id' else sort_by`. -/
def lineSortKey (sort_by : String) (l : Line) : Except PyError SortKey :=
  if sort_by = "id" then
    match pyUUID l.id with
    | .error e => .error e
    | .ok n => .ok (.uuid n)
  else .ok (.str sort_by)

/-! ### The filter/sort engine (`apply_line_filters_and_sorting`) -/

/-- Build the field predicate `ll_filter` from `--filter`.  The
expression is split at every `':'` and unpacked into exactly two parts
(any other arity raises `ValueError`, as Python tuple unpacking does);
`id`/`name` filter by substring, `m` with a (case-insensitively)
`t`/`f` literal filters by maintenance flag, anything else leaves the
predicate always-true. -/
def parseFilterPred : Option String → Except PyError (Line → Bool)
  | none => .ok (fun _ => true)
  | some rf =>
    match pySplit rf ':' with
    | [field_name, filter_expr] =>
      .ok (fun line =>
        if field_name = "m" && (pyLower filter_expr == "t" || pyLower filter_expr == "f") then
          line.in_maintenance == (pyLower filter_expr == "t")
        else if field_name = "id" then
          listContains line.id.data filter_expr.data
        else if field_name = "name" then
          listContains line.name.data filter_expr.data
        else true)
    | [_] => .error (.valueError "not enough values to unpack (expected 2, got 1)")
    | _ => .error (.valueError "too many values to unpack (expected 2)")

/-- Wrapper `ll_group_filter`: conjoin the field predicate with membership of
`int(group_id)` in the line's group set.  Python's `and`
short-circuits, so `int(group_id)` is only evaluated (and can only
raise) when the field predicate holds. -/
def ll_group_filter (group_id : Option String) (f : Line → Bool) (line : Line) :
    Except PyError Bool :=
  match group_id with
  | some g =>
    if f line then
      match pyInt g with
      | .error e => .error e
      | .ok gi => .ok (line.groups.contains gi)
    else .ok false
  | none => .ok (f line)

/-- Comprehension `[l for l in lines if p(l)]` with a possibly raising predicate. -/
def pyFilterM {α : Type} (p : α → Except PyError Bool) : List α → Except PyError (List α)
  | [] => .ok []
  | a :: as =>
    match p a with
    | .error e => .error e
    | .ok b =>
      match pyFilterM p as with
      | .error e => .error e
      | .ok rest => .ok (if b then a :: rest else rest)

/-- Engine `apply_line_filters_and_sorting(lines, sort_by, group_id, req_filter)`:
build the predicate (raising on a malformed filter expression), sort the
whole collection by the sort key, then keep the lines passing the
group-wrapped predicate. -/
def apply_line_filters_and_sorting (lines : List Line) (sort_by : String)
    (group_id : Option String) (req_filter : Option String) :
    Except PyError (List Line) :=
  match parseFilterPred req_filter with
  | .error e => .error e
  | .ok pred0 =>
    match pySorted sortKeyLe (lineSortKey sort_by) lines with
    | .error e => .error e
    | .ok sortedLines => pyFilterM (ll_group_filter group_id pred0) sortedLines

/-! ### The result cache (`class Cache`) -/

/-- A value held in a cache slot by the embedded writers: a line
collection (`ll`, `last_choosed_ll`) or a rendered table string
(`last_showed*`).  Group-list slots are written only by the
`llgr` handler, which no embedded operation reads back. -/
inductive CacheVal : Type
  | lines (ls : List Line)
  | table (s : String)
deriving DecidableEq

/-- The pickled store: a Python dict as an insertion-ordered
association list. -/
abbrev Store : Type := List (String × CacheVal)

/-- Python `dict.get(k)`: the first (unique) binding of `k`, if any. -/
def storeGet (s : Store) (k : String) : Option CacheVal :=
  match s with
  | [] => none
  | (k', v) :: rest => if k' = k then some v else storeGet rest k

/-- Python `d[k] = v`: replace the binding in place, or append. -/
def storeSet (s : Store) (k : String) (v : CacheVal) : Store :=
  match s with
  | [] => [(k, v)]
  | (k', v') :: rest =>
    if k' = k then (k, v) :: rest else (k', v') :: storeSet rest k v

/-- The on-disk `.cli-cache` file as `Cache._current_cache` observes
it: absent, holding a loadable pickled store, or holding bytes
`pickle.load` cannot parse. -/
inductive CacheFile : Type
  | missing
  | stored (s : Store)
  | corrupt
deriving DecidableEq

/-- Loader `Cache._current_cache`: an absent file yields the empty store; a
present file is unpickled, and `pickle.load` raises (uncaught) on
unparsable bytes. -/
def Cache.load : CacheFile → Except PyError Store
  | .missing => .ok []
  | .stored s => .ok s
  | .corrupt => .error (.unpicklingError "invalid load key")

/-- Reader `Cache.get(key, default)`: load the current store and look the slot
up, falling back to the default. -/
def Cache.get (fs : CacheFile) (key : String) (default : Option CacheVal) :
    Except PyError (Option CacheVal) :=
  match Cache.load fs with
  | .error e => .error e
  | .ok st =>
    .ok (match storeGet st key with
         | some v => some v
         | none => default)

/-- Writer `Cache.set(key, value)`: load the current store, mutate one slot,
rewrite the whole file. -/
def Cache.set (fs : CacheFile) (key : String) (value : CacheVal) :
    Except PyError CacheFile :=
  match Cache.load fs with
  | .error e => .error e
  | .ok st => .ok (.stored (storeSet st key value))

/-! ### Backend and command handlers -/

/-- A backend response for a collection endpoint: either the expected
record list or some other payload (an error body), which handlers print
verbatim. -/
inductive LinesResp : Type
  | list (ls : List Line)
  | other (payload : String)

/-- The REST backend as one immutable snapshot; each `requests.get`
with the bearer token is modelled as a pure read of this snapshot. -/
structure Backend : Type where
  lines : LinesResp
  lineById : String → Line
  lineStates : List LineState

/-- Fetch `_get_lines`. -/
def _get_lines (b : Backend) : LinesResp := b.lines

/-- Fetch `_get_line`. -/
def _get_line (b : Backend) (line_id : String) : Line := b.lineById line_id

/-- Fetch `_get_lines_status` (list case; the status handlers guard on it). -/
def _get_lines_status (b : Backend) : List LineState := b.lineStates

/-- Fetch `_get_line_state`: keep the state records whose `line_id` matches
and unpack exactly one (`lines_state, = tuple(filter(...))`); zero or
several matches raise `ValueError` from the unpacking, uncaught.  On
success the `line_id` key is dropped and the rest returned. -/
def _get_line_state (b : Backend) (line_id : String) : Except PyError String :=
  match b.lineStates.filter (fun st => st.line_id = line_id) with
  | [st] => .ok st.payload
  | [] => .error (.valueError "not enough values to unpack (expected 1, got 0)")
  | _ => .error (.valueError "too many values to unpack (expected 1)")

/-- Observable actions of a command handler: console output, the
confirmation prompt, and the Control Channel session steps (connection,
auth exchange, command message, printed replies). -/
inductive Effect : Type
  | printed (s : String)
  | prompted (s : String)
  | connected
  | sentAuth
  | sentRelayCmd (cmd : String)
  | sentModeCmd (mode : String)
  | printedReply
  | printedLineDetail (l : Line) (statePayload : String)
deriving DecidableEq

/-- Rendering of the external `tabulate` call.  The exact text is the
table library's concern; the embedding only needs some string
determined by the rows. -/
def tabulateLines (ls : List Line) : String :=
  String.intercalate "; " (ls.map (fun l => l.id ++ " " ++ l.name))

/-- Arguments of `ll list` relevant to the handler. -/
structure ListArgs : Type where
  sort : Option String
  group : Option String
  filter : Option String

/-- Default `args['--sort'] or 'id'`: Python `or` falls back on any falsy
value, including the empty string. -/
def sortByDefault : Option String → String
  | none => "id"
  | some s => if s = "" then "id" else s

/-- Handler `ll_list`: fetch the lines; if the response is a list, cache the
raw list, filter/sort it, cache the selection and the rendered table,
and print the table; otherwise print the payload verbatim.  Returns the
final cache file together with the effect trace. -/
def ll_list (fs : CacheFile) (b : Backend) (args : ListArgs) :
    Except PyError (CacheFile × List Effect) :=
  match _get_lines b with
  | .list ls =>
    (match Cache.set fs "ll" (.lines ls) with
     | .error e => .error e
     | .ok fs1 =>
       match apply_line_filters_and_sorting ls (sortByDefault args.sort)
           args.group args.filter with
       | .error e => .error e
       | .ok chosen =>
         match Cache.set fs1 "last_choosed_ll" (.lines chosen) with
         | .error e => .error e
         | .ok fs2 =>
           match Cache.set fs2 "last_showed_ll" (.table (tabulateLines chosen)) with
           | .error e => .error e
           | .ok fs3 =>
             match Cache.set fs3 "last_showed" (.table (tabulateLines chosen)) with
             | .error e => .error e
             | .ok fs4 => .ok (fs4, [Effect.printed (tabulateLines chosen)]))
  | .other payload => .ok (fs, [Effect.printed payload])

/-- Handler `ll_show`: take the cached raw line list (fetching if the slot is
empty), and if it is a list, keep the lines whose id starts with the
given prefix, unpack the first (`choose, *_ = ...`; zero matches raise
`ValueError`, uncaught), fetch and print that line merged with its
state.  A cached non-list value fails the `isinstance` guard and the
handler silently does nothing, as in Python. -/
def ll_show (fs : CacheFile) (b : Backend) (id_ : String) :
    Except PyError (List Effect) :=
  match Cache.get fs "ll" none with
  | .error e => .error e
  | .ok cached =>
    match (match cached with
           | none => _get_lines b
           | some (.lines ls) => LinesResp.list ls
           | some (.table s) => LinesResp.other s) with
    | .other _ => .ok []
    | .list ls =>
      match ls.filter (fun l => pyStartsWith l.id id_) with
      | [] => .error (.valueError "not enough values to unpack (expected at least 1, got 0)")
      | choose :: _ =>
        match _get_line_state b choose.id with
        | .error e => .error e
        | .ok st => .ok [Effect.printedLineDetail (_get_line b choose.id) st]

/-! ### The Control Channel commands (`ll cmd`) -/

/-- Session `lines_relay_cmd`: lowercase and assert the relay literal (the
`assert` fires before any connection is opened), then connect, print
the auth reply, send `relayEnable`/`relayDisable` for the selection,
and print the acknowledgement. -/
def lines_relay_cmd (lines : List Line) (relay_state : String) :
    Except PyError (List Effect) :=
  let rs := pyLower relay_state
  if rs = "on" || rs = "off" then
    .ok [.connected, .sentAuth, .printedReply,
         .sentRelayCmd (if rs = "on" then "relayEnable" else "relayDisable"),
         .printedReply]
  else .error .assertionError

/-- Session `lines_mode_cmd`: assert the mode literal, then connect, print the
auth reply, send the mode-set message, and print the acknowledgement. -/
def lines_mode_cmd (lines : List Line) (mode : String) :
    Except PyError (List Effect) :=
  if mode = "auto:sch" || mode = "manual" then
    .ok [.connected, .sentAuth, .printedReply, .sentModeCmd mode, .printedReply]
  else .error .assertionError

/-- Arguments of `ll cmd`. -/
structure CmdArgs : Type where
  relay : Option String
  mode : Option String

/-- Python `input()`: consume the next line of user input; end of input raises
`EOFError`, as in Python. -/
def pyInput : List String → Except PyError (String × List String)
  | [] => .error .eofError
  | s :: rest => .ok (s, rest)

/-- The confirmation prompt text of `ll_cmd`. -/
def confirmPrompt (what : String) (value : String) (n : Nat) : String :=
  "Set " ++ what ++ " " ++ value ++ " for " ++ toString n ++ " lines? [y/N]: "

/-- Handler `ll_cmd`: read the cached selection; when the slot is empty, print
`No lines choosed` and stop — in particular no connection is ever
opened.  Otherwise each of the `--relay`/`--mode` branches prompts for
confirmation and runs its Control Channel session only on a `y`
answer.  (A non-list value under the selection slot is unreachable from
the embedded writers; Python would raise `TypeError` building the
command objects, which the model raises at extraction.) -/
def ll_cmd (fs : CacheFile) (args : CmdArgs) (inputs : List String) :
    Except PyError (List Effect) :=
  match Cache.get fs "last_choosed_ll" none with
  | .error e => .error e
  | .ok none => .ok [.printed "No lines choosed"]
  | .ok (some (.table _)) => .error (.typeError "string indices must be integers")
  | .ok (some (.lines lines)) =>
    match ((match args.relay with
           | none => .ok (([] : List Effect), inputs)
           | some r =>
             match pyInput inputs with
             | .error e => .error e
             | .ok (resp, rest) =>
               if pyLower resp = "y" then
                 match lines_relay_cmd lines r with
                 | .error e => .error e
                 | .ok es => .ok (Effect.prompted (confirmPrompt "relay" r lines.length) :: es, rest)
               else .ok ([Effect.prompted (confirmPrompt "relay" r lines.length)], rest)) :
            Except PyError (List Effect × List String)) with
    | .error e => .error e
    | .ok (eff1, inputs1) =>
      match ((match args.mode with
             | none => .ok ([] : List Effect)
             | some m =>
               match pyInput inputs1 with
               | .error e => .error e
               | .ok (resp, _) =>
                 if pyLower resp = "y" then
                   match lines_mode_cmd lines m with
                   | .error e => .error e
                   | .ok es => .ok (Effect.prompted (confirmPrompt "mode" m lines.length) :: es)
                 else .ok [Effect.prompted (confirmPrompt "mode" m lines.length)]) :
              Except PyError (List Effect)) with
      | .error e => .error e
      | .ok eff2 => .ok (eff1 ++ eff2)

/-! ### The command dispatcher -/

/-- Scanner `determine_command`: scan the ordered command table and return the
handler of the first dotted command name all of whose tokens are truthy
in the parsed-argument map (`arguments.get(token, False)` is the map's
truthiness, modelled as a `String → Bool`). -/
def determine_command {α : Type} (commands : List (String × α))
    (arguments : String → Bool) : Option α :=
  match commands with
  | [] => none
  | (cmd, handler) :: rest =>
    if (pySplit cmd '.').all arguments then some handler
    else determine_command rest arguments

/-- Outcome of `dispatch_command`: a handler invocation, or the
`Unknown command requested!` report. -/
inductive DispatchResult (α : Type) : Type
  | invoked (handler : α)
  | unknownCommand
deriving DecidableEq

/-- The dispatching step of `dispatch_command` over an arbitrary
ordered command table. -/
def dispatch_with {α : Type} (commands : List (String × α))
    (arguments : String → Bool) : DispatchResult α :=
  match determine_command commands arguments with
  | some h => .invoked h
  | none => .unknownCommand

/-- The handlers of the CLI's command table. -/
inductive CliHandler : Type
  | configList | configSet | llList | llStatus | llShow | llCmd | llgrList | showLast
deriving DecidableEq

/-- The ordered command table of `dispatch_command`. -/
def commandTable : List (String × CliHandler) :=
  [("config.list", .configList), ("config.set", .configSet),
   ("ll.list", .llList), ("ll.status", .llStatus), ("ll.show", .llShow),
   ("ll.cmd", .llCmd), ("llgr.list", .llgrList), ("show", .showLast)]

/-- Dispatcher `dispatch_command` proper, over the CLI's own table. -/
def dispatch_command (arguments : String → Bool) : DispatchResult CliHandler :=
  dispatch_with commandTable arguments

/-! ### Concrete fixtures used by witnesses and counterexamples -/

/-- A line under maintenance, in group 1. -/
def wLine1 : Line := ⟨"aa", "alpha", true, [1]⟩

/-- A line not under maintenance, in group 2. -/
def wLine2 : Line := ⟨"bb", "beta", false, [2]⟩

/-- A one-line backend snapshot with an empty state collection. -/
def wBackend : Backend := ⟨.list [wLine1], fun _ => wLine1, []⟩

/-! ### Helper lemmas -/

theorem charsLe_refl (cs : List Char) : charsLe cs cs = true := by
  induction cs with
  | nil => rfl
  | cons a as ih => simp [charsLe, Nat.lt_irrefl, ih]

theorem strLeB_refl (s : String) : strLeB s s = true :=
  charsLe_refl s.data

theorem stableInsert_perm {α : Type} (le : α → α → Bool) (a : α) (l : List α) :
    (stableInsert le a l).Perm (a :: l) := by
  induction l with
  | nil => simp [stableInsert]
  | cons b bs ih =>
    by_cases h : le a b = true
    · simp [stableInsert, h]
    · simp only [stableInsert, if_neg h]
      exact (ih.cons b).trans (List.Perm.swap a b bs)

theorem stableSort_perm {α : Type} (le : α → α → Bool) (l : List α) :
    (stableSort le l).Perm l := by
  induction l with
  | nil => rfl
  | cons x xs ih =>
    exact (stableInsert_perm le x (stableSort le xs)).trans (ih.cons x)

theorem mapExcept_ok_length {α β : Type} (f : α → Except PyError β)
    (xs : List α) (ys : List β) (h : mapExcept f xs = .ok ys) :
    ys.length = xs.length := by
  induction xs generalizing ys with
  | nil => simp [mapExcept] at h; simp [← h]
  | cons a as ih =>
    simp only [mapExcept] at h
    cases hfa : f a with
    | error e => rw [hfa] at h; exact absurd h (by simp)
    | ok b =>
      rw [hfa] at h
      cases hrest : mapExcept f as with
      | error e => rw [hrest] at h; exact absurd h (by simp)
      | ok bs =>
        rw [hrest] at h
        cases h
        simp [ih bs hrest]

theorem mapExcept_const_ok {α β : Type} (k : β) (xs : List α) :
    mapExcept (fun _ => (.ok k : Except PyError β)) xs = .ok (xs.map (fun _ => k)) := by
  induction xs with
  | nil => rfl
  | cons a as ih => simp [mapExcept, ih]

theorem map_snd_zip_eq {α κ : Type} (ks : List κ) (xs : List α)
    (h : ks.length = xs.length) : (ks.zip xs).map Prod.snd = xs := by
  induction ks generalizing xs with
  | nil => cases xs with
    | nil => rfl
    | cons x xs => simp at h
  | cons k ks ih =>
    cases xs with
    | nil => simp at h
    | cons x xs =>
      simp only [List.zip_cons_cons, List.map_cons]
      simp only [List.length_cons, Nat.add_right_cancel_iff] at h
      rw [ih xs h]

theorem pySorted_perm {α κ : Type} (le : κ → κ → Bool) (key : α → Except PyError κ)
    (xs ys : List α) (h : pySorted le key xs = .ok ys) : ys.Perm xs := by
  unfold pySorted at h
  cases hm : mapExcept key xs with
  | error e => rw [hm] at h; exact absurd h (by simp)
  | ok ks =>
    rw [hm] at h
    cases h
    have hperm := (stableSort_perm (fun p q : κ × α => le p.1 q.1) (ks.zip xs)).map Prod.snd
    rwa [map_snd_zip_eq ks xs (mapExcept_ok_length key xs ks hm)] at hperm

theorem stableInsert_cons_of_le {α : Type} (le : α → α → Bool) (a b : α) (bs : List α)
    (h : le a b = true) : stableInsert le a (b :: bs) = a :: b :: bs := by
  simp [stableInsert, h]

theorem stableSort_fst_const {κ α : Type} (le : κ → κ → Bool) (k : κ)
    (hk : le k k = true) (l : List (κ × α)) (hl : ∀ p ∈ l, p.1 = k) :
    stableSort (fun p q => le p.1 q.1) l = l := by
  induction l with
  | nil => rfl
  | cons a as ih =>
    have has : ∀ p ∈ as, p.1 = k := fun p hp => hl p (List.mem_cons_of_mem a hp)
    show stableInsert (fun p q => le p.1 q.1) a (stableSort (fun p q => le p.1 q.1) as) = a :: as
    rw [ih has]
    cases as with
    | nil => rfl
    | cons b bs =>
      refine stableInsert_cons_of_le _ _ _ _ ?_
      show le a.1 b.1 = true
      rw [hl a (List.mem_cons_self a _), has b (List.mem_cons_self b bs)]
      exact hk

theorem pySorted_const_str (s : String) (xs : List Line) :
    pySorted sortKeyLe (fun _ => .ok (.str s)) xs = .ok xs := by
  unfold pySorted
  rw [mapExcept_const_ok]
  show Except.ok ((stableSort (fun p q : SortKey × Line => sortKeyLe p.1 q.1)
      ((xs.map (fun _ => SortKey.str s)).zip xs)).map Prod.snd) = Except.ok xs
  rw [stableSort_fst_const sortKeyLe (SortKey.str s) (strLeB_refl s) _
    (fun p hp => by
      rcases List.mem_map.mp (List.of_mem_zip hp).1 with ⟨x, hx, hx2⟩
      exact hx2.symm)]
  rw [map_snd_zip_eq _ _ (by simp)]

theorem lineSortKey_of_ne_id (sort_by : String) (h : sort_by ≠ "id") :
    lineSortKey sort_by = fun _ => .ok (.str sort_by) := by
  funext l
  simp [lineSortKey, h]

theorem pyFilterM_sublist {α : Type} (p : α → Except PyError Bool)
    (xs out : List α) (h : pyFilterM p xs = .ok out) : out.Sublist xs := by
  induction xs generalizing out with
  | nil => simp [pyFilterM] at h; simp [← h]
  | cons a as ih =>
    simp only [pyFilterM] at h
    cases hpa : p a with
    | error e => rw [hpa] at h; exact absurd h (by simp)
    | ok b =>
      rw [hpa] at h
      cases hrest : pyFilterM p as with
      | error e => rw [hrest] at h; exact absurd h (by simp)
      | ok rest =>
        rw [hrest] at h
        cases h
        cases b with
        | true => exact (ih rest hrest).cons₂ a
        | false => exact (ih rest hrest).cons a

theorem pyFilterM_pure {α : Type} (p : α → Bool) (xs : List α) :
    pyFilterM (fun a => (.ok (p a) : Except PyError Bool)) xs = .ok (xs.filter p) := by
  induction xs with
  | nil => rfl
  | cons a as ih =>
    simp only [pyFilterM, ih, List.filter]
    cases p a <;> rfl

theorem splitChars_of_not_mem (sep : Char) (cs : List Char) (h : sep ∉ cs) :
    splitChars sep cs = [cs] := by
  induction cs with
  | nil => rfl
  | cons c cs' ih =>
    have hc : ¬ c = sep := fun hh => h (hh ▸ List.mem_cons_self c cs')
    have hcs : sep ∉ cs' := fun hh => h (List.mem_cons_of_mem c hh)
    simp [splitChars, hc, ih hcs]

theorem pySplit_m_colon (e : String) (h : (':' : Char) ∉ e.data) :
    pySplit ("m:" ++ e) ':' = ["m", e] := by
  unfold pySplit
  rw [String.data_append]
  show (splitChars ':' ('m' :: ':' :: e.data)).map String.mk = ["m", e]
  rw [show splitChars ':' ('m' :: ':' :: e.data) = ['m'] :: splitChars ':' e.data by
    simp [splitChars]]
  rw [splitChars_of_not_mem ':' e.data h]
  simp

theorem pySplit_no_sep (s : String) (sep : Char) (h : sep ∉ s.data) :
    pySplit s sep = [s] := by
  unfold pySplit
  rw [splitChars_of_not_mem sep s.data h]
  simp

theorem Cache.set_load (fs : CacheFile) (st : Store) (k : String) (v : CacheVal)
    (hl : Cache.load fs = .ok st) :
    Cache.set fs k v = .ok (.stored (storeSet st k v)) := by
  unfold Cache.set
  rw [hl]

theorem storeGet_storeSet_self (st : Store) (k : String) (v : CacheVal) :
    storeGet (storeSet st k v) k = some v := by
  induction st with
  | nil => simp [storeGet, storeSet]
  | cons p rest ih =>
    by_cases h : p.1 = k
    · simp [storeGet, storeSet, h]
    · simp [storeGet, storeSet, h, ih]

/-- Reduction of `ll_show` once the cache is known to hold a line
list under `ll`. -/
theorem ll_show_cached_lines (fs : CacheFile) (b : Backend) (ls : List Line)
    (id_ : String) (hget : Cache.get fs "ll" none = .ok (some (.lines ls))) :
    ll_show fs b id_ =
      (match ls.filter (fun l => pyStartsWith l.id id_) with
       | [] => .error (.valueError "not enough values to unpack (expected at least 1, got 0)")
       | choose :: _ =>
         match _get_line_state b choose.id with
         | .error e => .error e
         | .ok st => .ok [Effect.printedLineDetail (_get_line b choose.id) st]) := by
  unfold ll_show
  rw [hget]

theorem parseFilterPred_mt :
    parseFilterPred (some "m:t") = .ok (fun l : Line => l.in_maintenance) := by
  show Except.ok (fun line : Line => line.in_maintenance == true) = _
  congr 1
  funext l
  cases l.in_maintenance <;> rfl

theorem parseFilterPred_mf :
    parseFilterPred (some "m:f") = .ok (fun l : Line => !l.in_maintenance) := by
  show Except.ok (fun line : Line => line.in_maintenance == false) = _
  congr 1
  funext l
  cases l.in_maintenance <;> rfl

theorem ll_group_filter_none (f : Line → Bool) :
    ll_group_filter none f = fun l => .ok (f l) := rfl

theorem ll_group_filter_some (g : String) (gi : Int) (hg : pyInt g = .ok gi)
    (f : Line → Bool) (line : Line) :
    ll_group_filter (some g) f line = .ok (f line && line.groups.contains gi) := by
  unfold ll_group_filter
  cases hf : f line with
  | true => simp [hg]
  | false => simp

theorem filter_and_eq {α : Type} (p q : α → Bool) (l : List α) :
    l.filter (fun a => p a && q a) = (l.filter p).filter q := by
  induction l with
  | nil => rfl
  | cons a as ih => cases hp : p a <;> cases hq : q a <;> simp [List.filter, hp, hq, ih]

/-- Inversion of a successful `apply_line_filters_and_sorting` run into
its three stages. -/
theorem apply_decomp (lines : List Line) (sort_by : String)
    (group_id req_filter : Option String) (out : List Line)
    (h : apply_line_filters_and_sorting lines sort_by group_id req_filter = .ok out) :
    ∃ pred0 sortedLines, parseFilterPred req_filter = .ok pred0 ∧
      pySorted sortKeyLe (lineSortKey sort_by) lines = .ok sortedLines ∧
      pyFilterM (ll_group_filter group_id pred0) sortedLines = .ok out := by
  unfold apply_line_filters_and_sorting at h
  cases hp : parseFilterPred req_filter with
  | error e => rw [hp] at h; exact absurd h (by simp)
  | ok pred0 =>
    rw [hp] at h
    cases hs : pySorted sortKeyLe (lineSortKey sort_by) lines with
    | error e => rw [hs] at h; exact absurd h (by simp)
    | ok sortedLines => rw [hs] at h; exact ⟨pred0, sortedLines, rfl, rfl, h⟩

/-- Congruence: `apply_line_filters_and_sorting` only looks at the filter argument
through `parseFilterPred`. -/
theorem apply_congr_pred (lines : List Line) (sort_by : String)
    (group_id : Option String) (rf rf' : Option String)
    (h : parseFilterPred rf = parseFilterPred rf') :
    apply_line_filters_and_sorting lines sort_by group_id rf
      = apply_line_filters_and_sorting lines sort_by group_id rf' := by
  unfold apply_line_filters_and_sorting
  rw [h]

/-- A maintenance filter whose literal lowercases to neither `t` nor
`f` builds the always-true predicate. -/
theorem parseFilterPred_m_other (e : String) (hc : (':' : Char) ∉ e.data)
    (hlt : pyLower e ≠ "t") (hlf : pyLower e ≠ "f") :
    parseFilterPred (some ("m:" ++ e)) = .ok (fun _ : Line => true) := by
  simp only [parseFilterPred]
  rw [pySplit_m_colon e hc]
  have h1 : (pyLower e == "t") = false := beq_eq_false_iff_ne.mpr hlt
  have h2 : (pyLower e == "f") = false := beq_eq_false_iff_ne.mpr hlf
  show Except.ok (fun line : Line =>
      if (decide ("m" = "m") && (pyLower e == "t" || pyLower e == "f")) = true then
        line.in_maintenance == (pyLower e == "t")
      else if "m" = "id" then listContains line.id.data e.data
      else if "m" = "name" then listContains line.name.data e.data
      else true) = Except.ok (fun _ : Line => true)
  rw [h1, h2]
  congr 1

/-! ### Claim theorems -/

/-- C1: for every line collection and every sort field other than
`id`, `apply_line_filters_and_sorting` sorts by the constant
sort-field-name key, so the sort is a no-op and the surviving lines
appear in the output in the relative order they had in the input. -/
theorem nonid_sort_is_noop (lines : List Line) (sort_by : String)
    (group_id req_filter : Option String) (out : List Line)
    (hsb : sort_by ≠ "id")
    (h : apply_line_filters_and_sorting lines sort_by group_id req_filter = .ok out) :
    pySorted sortKeyLe (lineSortKey sort_by) lines = .ok lines ∧ out.Sublist lines := by
  have hnoop : pySorted sortKeyLe (lineSortKey sort_by) lines = .ok lines := by
    rw [lineSortKey_of_ne_id sort_by hsb]
    exact pySorted_const_str sort_by lines
  obtain ⟨pred0, sortedLines, hp, hs, hf⟩ :=
    apply_decomp lines sort_by group_id req_filter out h
  rw [hnoop] at hs
  cases hs
  exact ⟨hnoop, pyFilterM_sublist _ _ _ hf⟩

/-- Witness for C1 at a concrete two-line collection sorted by `name`:
the engine keeps the input order. -/
theorem nonid_sort_is_noop_witness :
    pySorted sortKeyLe (lineSortKey "name") [wLine2, wLine1] = .ok [wLine2, wLine1] ∧
    List.Sublist [wLine2, wLine1] [wLine2, wLine1] :=
  nonid_sort_is_noop [wLine2, wLine1] "name" none none [wLine2, wLine1]
    (by decide) rfl

/-- C8: with no group filter, the filter expression `m:t` keeps exactly
the lines whose maintenance flag is true, and `m:f` exactly the
complement. -/
theorem maintenance_filter_exact (lines : List Line) (sort_by : String)
    (out_t out_f : List Line)
    (ht : apply_line_filters_and_sorting lines sort_by none (some "m:t") = .ok out_t)
    (hf : apply_line_filters_and_sorting lines sort_by none (some "m:f") = .ok out_f) :
    out_t.Perm (lines.filter (fun l => l.in_maintenance)) ∧
    out_f.Perm (lines.filter (fun l => !l.in_maintenance)) := by
  constructor
  · obtain ⟨pred0, sortedLines, hp, hs, hrun⟩ :=
      apply_decomp lines sort_by none (some "m:t") out_t ht
    rw [parseFilterPred_mt] at hp
    cases hp
    rw [ll_group_filter_none, pyFilterM_pure] at hrun
    cases hrun
    exact (pySorted_perm _ _ _ _ hs).filter _
  · obtain ⟨pred0, sortedLines, hp, hs, hrun⟩ :=
      apply_decomp lines sort_by none (some "m:f") out_f hf
    rw [parseFilterPred_mf] at hp
    cases hp
    rw [ll_group_filter_none, pyFilterM_pure] at hrun
    cases hrun
    exact (pySorted_perm _ _ _ _ hs).filter _

/-- Witness for C8 at a concrete collection: `m:t` returns the
maintained line, `m:f` the other one. -/
theorem maintenance_filter_exact_witness :
    List.Perm [wLine1] ([wLine1, wLine2].filter (fun l => l.in_maintenance)) ∧
    List.Perm [wLine2] ([wLine1, wLine2].filter (fun l => !l.in_maintenance)) :=
  maintenance_filter_exact [wLine1, wLine2] "name" [wLine1] [wLine2] rfl rfl

/-- C9: every line surviving a run with a requested group id has that
id in its group set, and the group condition is conjoined (logical AND)
with the field filter: the output is exactly the no-group output
restricted to members of the group. -/
theorem group_filter_conjoined (lines : List Line) (sort_by : String)
    (g : String) (gi : Int) (req_filter : Option String) (out out₀ : List Line)
    (hg : pyInt g = .ok gi)
    (h : apply_line_filters_and_sorting lines sort_by (some g) req_filter = .ok out)
    (h₀ : apply_line_filters_and_sorting lines sort_by none req_filter = .ok out₀) :
    (∀ l ∈ out, gi ∈ l.groups) ∧
    out = out₀.filter (fun l => l.groups.contains gi) := by
  obtain ⟨pred0, sortedLines, hp, hs, hrun⟩ :=
    apply_decomp lines sort_by (some g) req_filter out h
  obtain ⟨pred0', sortedLines', hp', hs', hrun'⟩ :=
    apply_decomp lines sort_by none req_filter out₀ h₀
  rw [hp] at hp'
  cases hp'
  rw [hs] at hs'
  cases hs'
  rw [show ll_group_filter (some g) pred0
        = fun l => .ok (pred0 l && l.groups.contains gi) from
      funext (ll_group_filter_some g gi hg pred0), pyFilterM_pure] at hrun
  cases hrun
  rw [ll_group_filter_none, pyFilterM_pure] at hrun'
  cases hrun'
  refine ⟨?_, filter_and_eq pred0 (fun l => l.groups.contains gi) sortedLines⟩
  intro l hl
  have := (List.mem_filter.mp hl).2
  simp only [Bool.and_eq_true] at this
  simpa using this.2

/-- Witness for C9 at a concrete collection with `--group 1`. -/
theorem group_filter_conjoined_witness :
    (∀ l ∈ [wLine1], (1 : Int) ∈ l.groups) ∧
    [wLine1] = [wLine1, wLine2].filter (fun l => l.groups.contains (1 : Int)) :=
  group_filter_conjoined [wLine1, wLine2] "name" "1" 1 none [wLine1] [wLine1, wLine2]
    rfl rfl rfl

/-- C10: the maintenance literal is matched case-insensitively
(`m:T`/`m:F` behave exactly like `m:t`/`m:f`), and a maintenance filter
whose literal lowercases to neither `t` nor `f` leaves the predicate
always-true, so the run coincides with a run with no filter at all. -/
theorem maintenance_filter_case_insensitive (lines : List Line) (sort_by : String)
    (group_id : Option String) (e : String)
    (hc : (':' : Char) ∉ e.data) (hlt : pyLower e ≠ "t") (hlf : pyLower e ≠ "f") :
    apply_line_filters_and_sorting lines sort_by group_id (some "m:T")
      = apply_line_filters_and_sorting lines sort_by group_id (some "m:t") ∧
    apply_line_filters_and_sorting lines sort_by group_id (some "m:F")
      = apply_line_filters_and_sorting lines sort_by group_id (some "m:f") ∧
    apply_line_filters_and_sorting lines sort_by group_id (some ("m:" ++ e))
      = apply_line_filters_and_sorting lines sort_by group_id none := by
  exact ⟨apply_congr_pred _ _ _ _ _ rfl, apply_congr_pred _ _ _ _ _ rfl,
    apply_congr_pred _ _ _ _ _
      ((parseFilterPred_m_other e hc hlt hlf).trans rfl)⟩

/-- C2: over every ordered command table, the dispatcher invokes the
handler of the first command all of whose dot-separated tokens are
truthy in the argument map, and reports an unknown command when no
command's complete token set matches; in particular a table ordered
`[a.b, a]` with both `a` and `b` truthy invokes the handler of `a.b`. -/
theorem dispatch_first_complete_match (α : Type) (cmds : List (String × α))
    (args : String → Bool) :
    ((∃ pre c suf, cmds = pre ++ c :: suf ∧
        (∀ c' ∈ pre, (pySplit c'.1 '.').all args = false) ∧
        (pySplit c.1 '.').all args = true ∧
        dispatch_with cmds args = .invoked c.2) ∨
      ((∀ c ∈ cmds, (pySplit c.1 '.').all args = false) ∧
        dispatch_with cmds args = .unknownCommand)) ∧
    ∀ h₁ h₂ : α, dispatch_with [("a.b", h₁), ("a", h₂)]
        (fun t => t == "a" || t == "b") = .invoked h₁ := by
  constructor
  · induction cmds with
    | nil => exact Or.inr ⟨by simp, rfl⟩
    | cons c0 rest ih =>
      cases hall : (pySplit c0.1 '.').all args with
      | true =>
        refine Or.inl ⟨[], c0, rest, rfl, by simp, hall, ?_⟩
        simp [dispatch_with, determine_command, hall]
      | false =>
        have hd : dispatch_with (c0 :: rest) args = dispatch_with rest args := by
          simp [dispatch_with, determine_command, hall]
        rcases ih with ⟨pre, c, suf, hEq, hpre, hc, hres⟩ | ⟨hnone, hres⟩
        · refine Or.inl ⟨c0 :: pre, c, suf, by rw [hEq]; rfl, ?_, hc, hd.trans hres⟩
          intro c' hc'
          rcases List.mem_cons.mp hc' with h | h
          · rw [h]; exact hall
          · exact hpre c' h
        · refine Or.inr ⟨?_, hd.trans hres⟩
          intro c hc
          rcases List.mem_cons.mp hc with h | h
          · rw [h]; exact hall
          · exact hnone c h
  · intro h₁ h₂
    rfl

/-- C3: a `Cache.set` of a slot followed by `Cache.get` of the same
slot returns exactly the written value, and a `Cache.get` of a slot
absent from the loaded store returns the miss sentinel (the default). -/
theorem cache_set_get_roundtrip (fs fs' : CacheFile) (slot : String)
    (v : CacheVal) (d : Option CacheVal)
    (hset : Cache.set fs slot v = .ok fs') :
    Cache.get fs' slot d = .ok (some v) ∧
    (∀ fs₀ st₀, Cache.load fs₀ = .ok st₀ → storeGet st₀ slot = none →
      Cache.get fs₀ slot d = .ok d) := by
  constructor
  · unfold Cache.set at hset
    cases hl : Cache.load fs with
    | error e => rw [hl] at hset; exact absurd hset (by simp)
    | ok st =>
      rw [hl] at hset
      cases hset
      show Except.ok (match storeGet (storeSet st slot v) slot with
                      | some w => some w
                      | none => d) = Except.ok (some v)
      rw [storeGet_storeSet_self]
  · intro fs₀ st₀ hl hnone
    unfold Cache.get
    rw [hl]
    show Except.ok (match storeGet st₀ slot with
                    | some w => some w
                    | none => d) = Except.ok d
    rw [hnone]

/-- Witness for C3: writing slot `ll` into a fresh cache and reading it
back yields the value; reading a fresh cache misses. -/
theorem cache_set_get_roundtrip_witness :
    Cache.get (.stored [("ll", CacheVal.lines [wLine1])]) "ll" none
      = .ok (some (CacheVal.lines [wLine1])) ∧
    Cache.get CacheFile.missing "ll" none = .ok none :=
  ⟨(cache_set_get_roundtrip .missing (.stored [("ll", CacheVal.lines [wLine1])])
      "ll" (CacheVal.lines [wLine1]) none rfl).1,
   (cache_set_get_roundtrip .missing (.stored [("ll", CacheVal.lines [wLine1])])
      "ll" (CacheVal.lines [wLine1]) none rfl).2 CacheFile.missing [] rfl rfl⟩

/-- C5 counterexample: on a corrupt store file `Cache.get` raises the
unpickling error instead of treating the store as empty — the `.error`
is an uncaught Python exception, not the empty-store answer `.ok none`
the claim requires. -/
theorem cache_corrupt_raises_counterexample :
    Cache.get CacheFile.corrupt "last_choosed_ll" none
      = .error (.unpicklingError "invalid load key") ∧
    Cache.get CacheFile.corrupt "last_choosed_ll" none ≠ .ok none :=
  ⟨rfl, fun h => Except.noConfusion h⟩

/-- C5 amended: a missing store file is treated as an empty store by
both `Cache.get` and `Cache.set`, but a corrupt (unloadable) store file
makes both raise the deserialization error. -/
theorem cache_missing_empty_corrupt_raises (k : String) (v : CacheVal)
    (d : Option CacheVal) :
    Cache.get CacheFile.missing k d = .ok d ∧
    Cache.set CacheFile.missing k v = .ok (.stored [(k, v)]) ∧
    Cache.get CacheFile.corrupt k d = .error (.unpicklingError "invalid load key") ∧
    Cache.set CacheFile.corrupt k v = .error (.unpicklingError "invalid load key") :=
  ⟨rfl, rfl, rfl, rfl⟩

/-- C6: when no prior selection is cached, `ll cmd` prints
`No lines choosed` and stops; in particular the Control Channel is
never opened. -/
theorem ll_cmd_no_selection (fs : CacheFile) (args : CmdArgs) (inputs : List String)
    (h : Cache.get fs "last_choosed_ll" none = .ok none) :
    ll_cmd fs args inputs = .ok [Effect.printed "No lines choosed"] ∧
    ∀ t, ll_cmd fs args inputs = .ok t → Effect.connected ∉ t := by
  have hmain : ll_cmd fs args inputs = .ok [Effect.printed "No lines choosed"] := by
    unfold ll_cmd
    rw [h]
  refine ⟨hmain, ?_⟩
  intro t ht
  rw [hmain] at ht
  cases ht
  simp

/-- Witness for C6 with a fresh cache and a relay request. -/
theorem ll_cmd_no_selection_witness :
    ll_cmd CacheFile.missing ⟨some "on", some "manual"⟩ []
      = .ok [Effect.printed "No lines choosed"] ∧
    ∀ t, ll_cmd CacheFile.missing ⟨some "on", some "manual"⟩ [] = .ok t →
      Effect.connected ∉ t :=
  ll_cmd_no_selection CacheFile.missing ⟨some "on", some "manual"⟩ [] rfl

/-- C4 counterexample: on the separator-free filter `mt` the engine
raises `ValueError` from the failed unpack and the `ll list` handler
propagates it uncaught — an `.error` escaping the handler is an
unhandled Python exception, i.e. the process aborts with a traceback
instead of failing the command gracefully with a parse message. -/
theorem filter_no_colon_crashes_counterexample :
    apply_line_filters_and_sorting [wLine1, wLine2] "id" none (some "mt")
      = .error (.valueError "not enough values to unpack (expected 2, got 1)") ∧
    ll_list CacheFile.missing wBackend ⟨none, none, some "mt"⟩
      = .error (.valueError "not enough values to unpack (expected 2, got 1)") :=
  ⟨rfl, rfl⟩

/-- C4 amended: a filter expression containing no `:` makes the split
unpack raise `ValueError`; nothing catches it, so the `ll list` run
aborts with that exception (rather than reporting a parse error and
continuing). -/
theorem filter_no_colon_raises (lines : List Line) (sort_by : String)
    (group_id : Option String) (f : String) (hf : (':' : Char) ∉ f.data) :
    apply_line_filters_and_sorting lines sort_by group_id (some f)
      = .error (.valueError "not enough values to unpack (expected 2, got 1)") ∧
    ∀ (fs : CacheFile) (st : Store) (b : Backend) (ls : List Line)
      (g : Option String),
      Cache.load fs = .ok st → b.lines = .list ls →
      ll_list fs b ⟨none, g, some f⟩
        = .error (.valueError "not enough values to unpack (expected 2, got 1)") := by
  have hparse : parseFilterPred (some f)
      = .error (.valueError "not enough values to unpack (expected 2, got 1)") := by
    simp only [parseFilterPred]
    rw [pySplit_no_sep f ':' hf]
  have happly : ∀ (ls : List Line) (sb : String) (g : Option String),
      apply_line_filters_and_sorting ls sb g (some f)
        = .error (.valueError "not enough values to unpack (expected 2, got 1)") := by
    intro ls sb g
    unfold apply_line_filters_and_sorting
    rw [hparse]
  refine ⟨happly lines sort_by group_id, ?_⟩
  intro fs st b ls g hload hb
  unfold ll_list _get_lines
  rw [hb]
  show (match Cache.set fs "ll" (CacheVal.lines ls) with
        | .error e => .error e
        | .ok fs1 =>
          match apply_line_filters_and_sorting ls (sortByDefault none) g (some f) with
          | .error e => .error e
          | .ok chosen =>
            match Cache.set fs1 "last_choosed_ll" (CacheVal.lines chosen) with
            | .error e => .error e
            | .ok fs2 =>
              match Cache.set fs2 "last_showed_ll" (CacheVal.table (tabulateLines chosen)) with
              | .error e => .error e
              | .ok fs3 =>
                match Cache.set fs3 "last_showed" (CacheVal.table (tabulateLines chosen)) with
                | .error e => .error e
                | .ok fs4 => .ok (fs4, [Effect.printed (tabulateLines chosen)]))
      = Except.error (PyError.valueError "not enough values to unpack (expected 2, got 1)")
  rw [Cache.set_load fs st "ll" (CacheVal.lines ls) hload]
  rw [happly ls (sortByDefault none) g]

/-- Witness for C4's amended theorem at the filter `mt`. -/
theorem filter_no_colon_raises_witness :
    apply_line_filters_and_sorting [wLine1] "name" none (some "mt")
      = .error (.valueError "not enough values to unpack (expected 2, got 1)") ∧
    ll_list (.stored []) wBackend ⟨none, none, some "mt"⟩
      = .error (.valueError "not enough values to unpack (expected 2, got 1)") :=
  ⟨(filter_no_colon_raises [wLine1] "name" none "mt" (by decide)).1,
   (filter_no_colon_raises [wLine1] "name" none "mt" (by decide)).2
     (.stored []) [] wBackend [wLine1] none rfl rfl⟩

/-- C7 counterexample: a `ll show` whose id prefix matches no cached
line, and a state fetch whose id matches no state record, both raise
`ValueError` from the unguarded unpack; the `.error` escapes every
handler, so the process aborts with a traceback instead of failing with
a clear user-facing message. -/
theorem zero_match_crashes_counterexample :
    ll_show CacheFile.missing wBackend "zz"
      = .error (.valueError "not enough values to unpack (expected at least 1, got 0)") ∧
    _get_line_state wBackend "aa"
      = .error (.valueError "not enough values to unpack (expected 1, got 0)") :=
  ⟨rfl, rfl⟩

/-- C7 amended: when the per-line state fetch matches zero records, or
the show-line flow's id-prefix filter matches zero cached lines, the
iterable unpacking raises `ValueError`, which no handler catches — the
command (and process) aborts with the exception. -/
theorem zero_match_unpack_raises (b : Backend) (line_id : String)
    (h0 : b.lineStates.filter (fun st => st.line_id = line_id) = []) :
    _get_line_state b line_id
      = .error (.valueError "not enough values to unpack (expected 1, got 0)") ∧
    ∀ (fs : CacheFile) (ls : List Line) (id_ : String),
      Cache.get fs "ll" none = .ok (some (.lines ls)) →
      ls.filter (fun l => pyStartsWith l.id id_) = [] →
      ll_show fs b id_
        = .error (.valueError "not enough values to unpack (expected at least 1, got 0)") := by
  constructor
  · unfold _get_line_state
    rw [h0]
  · intro fs ls id_ hget hfilter
    rw [ll_show_cached_lines fs b ls id_ hget, hfilter]

/-- Witness for C7's amended theorem at a concrete backend and cache. -/
theorem zero_match_unpack_raises_witness :
    _get_line_state wBackend "aa"
      = .error (.valueError "not enough values to unpack (expected 1, got 0)") ∧
    ll_show (.stored [("ll", CacheVal.lines [wLine1])]) wBackend "zz"
      = .error (.valueError "not enough values to unpack (expected at least 1, got 0)") :=
  ⟨(zero_match_unpack_raises wBackend "aa" rfl).1,
   (zero_match_unpack_raises wBackend "aa" rfl).2
     (.stored [("ll", CacheVal.lines [wLine1])]) [wLine1] "zz" rfl rfl⟩

/-- Witness for C10 with the invalid literal `x`. -/
theorem maintenance_filter_case_insensitive_witness :
    apply_line_filters_and_sorting [wLine1, wLine2] "name" none (some "m:T")
      = apply_line_filters_and_sorting [wLine1, wLine2] "name" none (some "m:t") ∧
    apply_line_filters_and_sorting [wLine1, wLine2] "name" none (some "m:F")
      = apply_line_filters_and_sorting [wLine1, wLine2] "name" none (some "m:f") ∧
    apply_line_filters_and_sorting [wLine1, wLine2] "name" none (some ("m:" ++ "x"))
      = apply_line_filters_and_sorting [wLine1, wLine2] "name" none none :=
  maintenance_filter_case_insensitive [wLine1, wLine2] "name" none "x"
    (by decide) (by decide) (by decide)

end EscCli
